import Mathlib

/-!
# sia-nbdserver: command-line wiring, configuration paths and signal handling

A shallow embedding of `main.go` and `config/config.go`.

* Go strings are modelled by Lean strings; the path routines only ever compare a
  byte with `'/'` or `'.'`, and neither byte occurs inside a multi-byte UTF-8
  sequence, so working on characters agrees with working on bytes.
* Go `int` is the 64-bit two's-complement integer, modelled by `Int` with an
  explicit wrap-around; `uint64` is modelled by `Nat`.
* Calls that leave the program (`log.Fatal`, `os.Exit`, `panic`, the `sia` and
  `nbd` packages) are recorded as events of a trace.
-/

namespace SiaNbd

/-! ## `path/filepath` (Unix) -/

namespace filepath

/-- The Unix path separator test `os.IsPathSeparator`. -/
def isPathSeparator (c : Char) : Bool := c == '/'

/-- The inner loop of the `..` case of `Clean`, entered after `out.w--`:
`for out.w > dotdot && !os.IsPathSeparator(out.index(out.w)) { out.w-- }`.
The argument is the current `out.w`; the result is its final value. -/
def backtrack (out : List Char) (dotdot : Nat) : Nat → Nat
  | 0 => 0
  | w + 1 =>
    if w + 1 > dotdot ∧ out.get? (w + 1) ≠ some '/' then backtrack out dotdot w else w + 1

/-- The main loop `for r < n { switch { ... } }` of `Clean`.  `rest` is the unread
input `path[r:]`, `out` the bytes written so far (`out.w = out.length`), and the
result is the pair `(out, dotdot)` at loop exit.  Every iteration advances `r`
by at least one, so `fuel = len(path[r:])` iterations always suffice
(see `cleanLoop_fuel`). -/
def cleanLoop (rooted : Bool) : Nat → List Char → List Char → Nat → List Char × Nat
  | 0, _, out, dotdot => (out, dotdot)
  | _ + 1, [], out, dotdot => (out, dotdot)
  | fuel + 1, c :: t, out, dotdot =>
    if isPathSeparator c then
      -- empty path element
      cleanLoop rooted fuel t out dotdot
    else if c = '.' ∧ (t = [] ∨ t.head? = some '/') then
      -- . element
      cleanLoop rooted fuel t out dotdot
    else if c = '.' ∧ t.head? = some '.' ∧ (t.tail = [] ∨ t.tail.head? = some '/') then
      -- .. element: remove to last separator
      if out.length > dotdot then
        -- can backtrack
        cleanLoop rooted fuel t.tail (out.take (backtrack out dotdot (out.length - 1))) dotdot
      else if !rooted then
        -- cannot backtrack, but not rooted, so append .. element
        let out1 := if out.length > 0 then out ++ ['/'] else out
        let out2 := out1 ++ ['.', '.']
        cleanLoop rooted fuel t.tail out2 out2.length
      else
        cleanLoop rooted fuel t.tail out dotdot
    else
      -- real path element: add slash if needed, then copy the element
      let out1 :=
        if (rooted && out.length != 1) || (!rooted && out.length != 0) then out ++ ['/'] else out
      cleanLoop rooted fuel ((c :: t).dropWhile (fun x => !isPathSeparator x))
        (out1 ++ (c :: t).takeWhile (fun x => !isPathSeparator x)) dotdot

/-- The function `Clean` on a character list (no volume names on Unix). -/
def cleanChars (path : List Char) : List Char :=
  match path with
  | [] => ['.']
  | c :: t =>
    let rooted := isPathSeparator c
    let out :=
      if rooted then (cleanLoop true t.length t ['/'] 1).1
      else (cleanLoop false (c :: t).length (c :: t) [] 0).1
    -- Turn empty string into "."
    if out.length = 0 then ['.'] else out

/-- Go `filepath.Clean`. -/
def Clean (path : String) : String := String.mk (cleanChars path.data)

/-- Go `strings.Join(elems, sep)`. -/
def stringsJoin : List String → String → String
  | [], _ => ""
  | [e], _ => e
  | e :: es, sep => e ++ sep ++ stringsJoin es sep

/-- Go `filepath.Join`: the first non-empty element onwards, joined by `/` and cleaned;
the empty string when every element is empty. -/
def Join : List String → String
  | [] => ""
  | e :: es => if e ≠ "" then Clean (stringsJoin (e :: es) "/") else Join es

/-- Go `filepath.IsAbs` (Unix): the path begins with a separator. -/
def IsAbs (path : String) : Bool := path.data.head? == some '/'

/-- The loop run with exactly the fuel its unread input needs. -/
def cleanRun (rooted : Bool) (rest out : List Char) (dotdot : Nat) : List Char × Nat :=
  cleanLoop rooted rest.length rest out dotdot

end filepath

/-! ## `config/config.go` -/

/-- The part of the process environment the program reads. -/
structure Env where
  /-- Value of `os.Getenv("XDG_RUNTIME_DIR")`: the empty string when the variable is unset. -/
  XDG_RUNTIME_DIR : String
  /-- Result of `user.Current()`: the error, or the `HomeDir` of the current user. -/
  currentUser : Except String String

namespace config

/-- Go `config.GetAPIPasswordPath`; `Except.error m` stands for `log.Fatal(m)`. -/
def GetAPIPasswordPath (env : Env) (path : String) : Except String String :=
  match env.currentUser with
  | .error err => .error err
  | .ok homeDir => .ok (filepath.Join [homeDir, path])

/-- Go `config.GetSocketPath`; `Except.error m` stands for `log.Fatal(m)`. -/
def GetSocketPath (env : Env) (path : String) : Except String String :=
  let runtimeDir := env.XDG_RUNTIME_DIR
  if runtimeDir = "" then .error "$XDG_RUNTIME_DIR not set"
  else .ok (filepath.Join [runtimeDir, path])

end config

/-! ## `main.go`: signal handling -/

/-- Go `syscall.Signal` (`type Signal int`). -/
abbrev Signal := Int

/-- Linux `syscall.SIGINT`. -/
def SIGINT : Signal := 2
/-- Linux `syscall.SIGUSR1`. -/
def SIGUSR1 : Signal := 10
/-- Linux `syscall.SIGTERM`. -/
def SIGTERM : Signal := 15

/-- The backend as the signal handler sees it.  The method `Shutdown` of `sia.Backend`
lies outside the sources and is a parameter: an arbitrary state transformer that
receives the mode (`true` = thorough, `false` = fast) and may return an error. -/
structure Backend (σ : Type) where
  Shutdown : σ → Bool → σ × Option String

/-- What the signal-handling goroutine does, in order. -/
inductive HandlerEvent
  | logPrintf (msg : String)
  | Shutdown (thorough : Bool)
  | logFatal (err : String)
  | goPanic (msg : String)
  deriving DecidableEq, Repr

/-- One iteration of the loop of `installSignalHandlers` on the received signal `sig`:
the events of the iteration and the backend state with which the loop continues
(`none` when the process was ended by `log.Fatal` or `panic`). -/
def handleSignal {σ : Type} (b : Backend σ) (st : σ) (sig : Signal) :
    List HandlerEvent × Option σ :=
  if sig = SIGINT ∨ sig = SIGTERM then
    match b.Shutdown st false with
    | (_, some err) =>
      ([.logPrintf "Performing fast shutdown\n", .Shutdown false, .logFatal err], none)
    | (st1, none) => ([.logPrintf "Performing fast shutdown\n", .Shutdown false], some st1)
  else if sig = SIGUSR1 then
    match b.Shutdown st true with
    | (_, some err) =>
      ([.logPrintf "Performing thorough shutdown\n", .Shutdown true, .logFatal err], none)
    | (st1, none) => ([.logPrintf "Performing thorough shutdown\n", .Shutdown true], some st1)
  else
    ([.goPanic "unexpected signal"], none)

/-- Go `installSignalHandlers`: the loop `for { sig := <-c; switch sig { ... } }` run on
the signals received from the channel, in order.  When the list is exhausted the
goroutine blocks on the channel. -/
def installSignalHandlers {σ : Type} (b : Backend σ) : σ → List Signal → List HandlerEvent
  | _, [] => []
  | st, sig :: rest =>
    match handleSignal b st sig with
    | (evs, none) => evs
    | (evs, some st1) => evs ++ installSignalHandlers b st1 rest

/-- The modes of the `Shutdown` calls of a trace, in order. -/
def shutdownCalls : List HandlerEvent → List Bool
  | [] => []
  | .Shutdown m :: es => m :: shutdownCalls es
  | _ :: es => shutdownCalls es

/-! ## `main.go`: settings and start-up -/

/-- Modelled from the spec: the declaration of `sia.BackendSettings` is not among the
sources; the fields are those of the composite literal in `main`
(`Size` is `uint64`, the cache limits are `int`, `IdleInterval` is a
`time.Duration` in nanoseconds). -/
structure BackendSettings where
  Size : Nat
  HardMaxCached : Int
  SoftMaxCached : Int
  IdleInterval : Int
  SiaDaemonAddress : String
  SiaPasswordFile : String
  deriving DecidableEq, Repr

/-- Two's-complement wrap-around of a mathematical integer into Go's 64-bit `int`. -/
def wrapInt64 (x : Int) : Int := (x + 2 ^ 63) % 2 ^ 64 - 2 ^ 63

/-- Go `int(time.Second)`: nanoseconds in a second. -/
def timeSecond : Int := 1000000000

/-- Values given on the command line; `none` leaves the variable at its default. -/
structure Flags where
  unix : Option String
  size : Option Nat
  hard : Option Int
  soft : Option Int
  idle : Option Int
  siaPasswordFile : Option String
  siaDaemon : Option String

/-- The flag values fit their Go types (`uint64`, and `int` for the three counters),
as the flag parser guarantees. -/
def Flags.InRange (f : Flags) : Prop :=
  (∀ s, f.size = some s → s < 2 ^ 64) ∧
  (∀ n, f.hard = some n → -2 ^ 63 ≤ n ∧ n < 2 ^ 63) ∧
  (∀ n, f.soft = some n → -2 ^ 63 ≤ n ∧ n < 2 ^ 63) ∧
  (∀ n, f.idle = some n → -2 ^ 63 ≤ n ∧ n < 2 ^ 63)

/-- What `rootCmd.Execute()` makes of the command line. -/
inductive CommandLine
  /-- flag parsing failed: `Execute` returns the error -/
  | invalid (err : String)
  /-- the help flag: usage is printed, `Run` is not called -/
  | help
  /-- flags were parsed and `Run` is called -/
  | run (flags : Flags)

/-- The callees of `serve` that lie outside the sources, `sia.NewBackend` and `nbd.Serve`,
as parameters: for each, the error it returns on its arguments, if any. -/
structure World where
  newBackendErr : BackendSettings → Option String
  serveErr : String → Nat → Option String

/-- What the main goroutine does, in order. -/
inductive Event
  | logFatal (msg : String)
  | println (msg : String)
  | osExit (code : Nat)
  | printHelp
  | NewBackend (settings : BackendSettings)
  | goInstallSignalHandlers
  | nbdServe (socketPath : String) (exportSize : Nat)
  | backendWait
  deriving DecidableEq, Repr

/-- Go `serve`. -/
def serve (w : World) (socketPath : String) (exportSize : Nat)
    (backendSettings : BackendSettings) : List Event :=
  .NewBackend backendSettings ::
    match w.newBackendErr backendSettings with
    | some err => [.logFatal err]
    | none =>
      .goInstallSignalHandlers :: .nbdServe socketPath exportSize ::
        match w.serveErr socketPath exportSize with
        | some err => [.logFatal err]
        | none => [.backendWait]

/-- The message printed by `Run` when the socket path is empty. -/
def noSocketPathMessage : String :=
  "Default socket path is $XDG_RUNTIME_DIR/sia-nbdserver," ++
    " but $XDG_RUNTIME_DIR is not set. Please specify a socket path via -u flag."

/-- The `BackendSettings` literal built in the `Run` function of the root command. -/
def mkBackendSettings (size : Nat) (hardMaxCached softMaxCached idleIntervalSeconds : Int)
    (siaDaemonAddress siaPasswordFile : String) : BackendSettings :=
  { Size := size
    HardMaxCached := hardMaxCached
    SoftMaxCached := softMaxCached
    IdleInterval := wrapInt64 (idleIntervalSeconds * timeSecond)
    SiaDaemonAddress := siaDaemonAddress
    SiaPasswordFile := siaPasswordFile }

/-- The `Run` function of the root command, on the values of the captured variables. -/
def rootRun (w : World) (socketPath : String) (size : Nat)
    (hardMaxCached softMaxCached idleIntervalSeconds : Int)
    (siaDaemonAddress siaPasswordFile : String) : List Event :=
  if socketPath = "" then
    [.println noSocketPathMessage, .osExit 1]
  else
    serve w socketPath size
      (mkBackendSettings size hardMaxCached softMaxCached idleIntervalSeconds
        siaDaemonAddress siaPasswordFile)

/-- Go `main`: defaults, then the flags overwrite them, then `Run`. -/
def main (env : Env) (w : World) (cli : CommandLine) : List Event :=
  match config.GetSocketPath env "" with
  | .error msg => [.logFatal msg]
  | .ok socketPath =>
    let size : Nat := 1 * 1024 * 1024 * 1024 * 1024
    let hardMaxCached : Int := 128
    let softMaxCached : Int := 96
    let idleIntervalSeconds : Int := 120
    let siaDaemonAddress := "localhost:9980"
    match config.GetAPIPasswordPath env ".sia/apipassword" with
    | .error msg => [.logFatal msg]
    | .ok siaPasswordFile =>
      match cli with
      | .invalid err => [.logFatal err]
      | .help => [.printHelp]
      | .run flags =>
        rootRun w (flags.unix.getD socketPath) (flags.size.getD size)
          (flags.hard.getD hardMaxCached) (flags.soft.getD softMaxCached)
          (flags.idle.getD idleIntervalSeconds) (flags.siaDaemon.getD siaDaemonAddress)
          (flags.siaPasswordFile.getD siaPasswordFile)

/-- The command line without any flag. -/
def noFlags : Flags :=
  { unix := none, size := none, hard := none, soft := none, idle := none,
    siaPasswordFile := none, siaDaemon := none }

/-- An outside world in which `sia.NewBackend` and `nbd.Serve` succeed. -/
def okWorld : World := { newBackendErr := fun _ => none, serveErr := fun _ _ => none }

/-- A backend whose `Shutdown` counts its calls and never fails. -/
def countingBackend : Backend Nat := { Shutdown := fun n _ => (n + 1, none) }

/-- An environment with a runtime directory and a home directory. -/
def sampleEnv : Env := { XDG_RUNTIME_DIR := "/run/user/1000", currentUser := .ok "/home/u" }

/-- The default export size of `main`: 1 TiB. -/
def defaultSize : Nat := 1 * 1024 * 1024 * 1024 * 1024

/-- The settings `Run` builds from the flags `flags` when the default password file computed
from the environment is `siaPasswordFile`. -/
def settingsOf (flags : Flags) (siaPasswordFile : String) : BackendSettings :=
  mkBackendSettings (flags.size.getD defaultSize) (flags.hard.getD 128) (flags.soft.getD 96)
    (flags.idle.getD 120) (flags.siaDaemon.getD "localhost:9980")
    (flags.siaPasswordFile.getD siaPasswordFile)

/-- The flags `--hard 1 --soft 2`. -/
def flagsHard1Soft2 : Flags := { noFlags with hard := some 1, soft := some 2 }

/-- The flag `--idle 9223372037`. -/
def flagsIdleLarge : Flags := { noFlags with idle := some 9223372037 }

/-- The flag `-u /tmp/nbd.sock`. -/
def flagsUnix : Flags := { noFlags with unix := some "/tmp/nbd.sock" }

/-- An environment whose current user has the root directory as home. -/
def rootHomeEnv : Env := { XDG_RUNTIME_DIR := "/run/user/1000", currentUser := .ok "/" }

/-! ## `path/filepath`: lemmas -/

namespace filepath

theorem backtrack_ge (out : List Char) (dotdot : Nat) (w : Nat) (h : dotdot ≤ w) :
    dotdot ≤ backtrack out dotdot w := by
  induction w with
  | zero => simpa [backtrack] using h
  | succ w ih =>
    rw [backtrack]
    split_ifs with hc
    · exact ih (by omega)
    · exact h

theorem length_dropWhile_le (p : Char → Bool) (l : List Char) :
    (l.dropWhile p).length ≤ l.length := by
  induction l with
  | nil => simp
  | cons a l ih =>
    rw [List.dropWhile_cons]
    split_ifs
    · simp only [List.length_cons]; omega
    · exact le_refl _

/-- Any two amounts of fuel that cover the unread input give the same result. -/
theorem cleanLoop_fuel_eq (rooted : Bool) (f1 : Nat) :
    ∀ (f2 : Nat) (rest out : List Char) (dotdot : Nat), rest.length ≤ f1 → rest.length ≤ f2 →
      cleanLoop rooted f1 rest out dotdot = cleanLoop rooted f2 rest out dotdot := by
  induction f1 with
  | zero =>
    intro f2 rest out dotdot h1 _
    have : rest = [] := List.length_eq_zero.mp (by omega)
    subst this
    cases f2 <;> simp [cleanLoop]
  | succ f1 ih =>
    intro f2 rest out dotdot h1 h2
    cases rest with
    | nil => cases f2 <;> simp [cleanLoop]
    | cons c t =>
      cases f2 with
      | zero => simp at h2
      | succ f2 =>
        simp only [List.length_cons, Nat.add_le_add_iff_right] at h1 h2
        have htl : t.tail.length ≤ t.length := by simp
        have hdw : ((c :: t).dropWhile (fun x => !isPathSeparator x)).length ≤ t.length ∨
            isPathSeparator c = true := by
          by_cases hc : isPathSeparator c = true
          · exact Or.inr hc
          · left
            rw [List.dropWhile_cons_of_pos (by simpa using hc)]
            exact length_dropWhile_le _ _
        simp only [cleanLoop]
        split_ifs <;>
          first
          | exact ih _ _ _ _ h1 h2
          | exact ih _ _ _ _ (by omega) (by omega)
          | (rcases hdw with hd | hd
             · exact ih _ _ _ _ (by omega) (by omega)
             · contradiction)

/-- Fuel equal to the length of the unread input is enough: more fuel changes nothing. -/
theorem cleanLoop_fuel (rooted : Bool) (fuel : Nat) (rest out : List Char) (dotdot : Nat)
    (h : rest.length ≤ fuel) :
    cleanLoop rooted fuel rest out dotdot = cleanLoop rooted rest.length rest out dotdot :=
  cleanLoop_fuel_eq rooted fuel rest.length rest out dotdot h (le_refl _)

theorem cleanRun_nil (rooted : Bool) (out : List Char) (dotdot : Nat) :
    cleanRun rooted [] out dotdot = (out, dotdot) := by
  simp [cleanRun, cleanLoop]

/-- One iteration of the loop, free of fuel. -/
theorem cleanRun_cons (rooted : Bool) (c : Char) (t out : List Char) (dotdot : Nat) :
    cleanRun rooted (c :: t) out dotdot =
      if isPathSeparator c then cleanRun rooted t out dotdot
      else if c = '.' ∧ (t = [] ∨ t.head? = some '/') then cleanRun rooted t out dotdot
      else if c = '.' ∧ t.head? = some '.' ∧ (t.tail = [] ∨ t.tail.head? = some '/') then
        if out.length > dotdot then
          cleanRun rooted t.tail (out.take (backtrack out dotdot (out.length - 1))) dotdot
        else if !rooted then
          cleanRun rooted t.tail ((if out.length > 0 then out ++ ['/'] else out) ++ ['.', '.'])
            ((if out.length > 0 then out ++ ['/'] else out) ++ ['.', '.']).length
        else cleanRun rooted t.tail out dotdot
      else
        cleanRun rooted ((c :: t).dropWhile (fun x => !isPathSeparator x))
          ((if (rooted && out.length != 1) || (!rooted && out.length != 0) then out ++ ['/']
            else out) ++ (c :: t).takeWhile (fun x => !isPathSeparator x)) dotdot := by
  have htl : t.tail.length ≤ t.length := by simp
  have hdw : ((c :: t).dropWhile (fun x => !isPathSeparator x)).length ≤ t.length ∨
      isPathSeparator c = true := by
    by_cases hc : isPathSeparator c = true
    · exact Or.inr hc
    · left
      rw [List.dropWhile_cons_of_pos (by simpa using hc)]
      exact length_dropWhile_le _ _
  simp only [cleanRun, List.length_cons, cleanLoop]
  split_ifs <;>
    first
    | rfl
    | exact cleanLoop_fuel _ _ _ _ _ (by omega)
    | (rcases hdw with hd | hd
       · exact cleanLoop_fuel _ _ _ _ _ (by omega)
       · contradiction)

theorem takeWhile_append_sep (a rest : List Char) :
    (a ++ '/' :: rest).takeWhile (fun x => !isPathSeparator x) =
      a.takeWhile (fun x => !isPathSeparator x) := by
  induction a with
  | nil => simp [isPathSeparator]
  | cons x a ih =>
    rw [List.cons_append, List.takeWhile_cons, List.takeWhile_cons, ih]

theorem dropWhile_append_sep (a rest : List Char) :
    (a ++ '/' :: rest).dropWhile (fun x => !isPathSeparator x) =
      a.dropWhile (fun x => !isPathSeparator x) ++ '/' :: rest := by
  induction a with
  | nil => simp [isPathSeparator]
  | cons x a ih =>
    rw [List.cons_append, List.dropWhile_cons, List.dropWhile_cons, ih]
    split_ifs <;> rfl

theorem elemEnd_append_sep (l rest : List Char) :
    (l ++ '/' :: rest = [] ∨ (l ++ '/' :: rest).head? = some '/') ↔
      (l = [] ∨ l.head? = some '/') := by
  cases l <;> simp

theorem head_append_sep_dot (l rest : List Char) :
    (l ++ '/' :: rest).head? = some '.' ↔ l.head? = some '.' := by
  cases l <;> simp

/-- Reading `a` followed by a separator and `rest` passes through the state in which
reading `a` alone ends. -/
theorem cleanRun_append_sep (rooted : Bool) (n : Nat) :
    ∀ (a rest out : List Char) (dotdot : Nat), a.length ≤ n →
      cleanRun rooted (a ++ '/' :: rest) out dotdot =
        cleanRun rooted ('/' :: rest) (cleanRun rooted a out dotdot).1
          (cleanRun rooted a out dotdot).2 := by
  induction n with
  | zero =>
    intro a rest out dotdot h
    have : a = [] := List.length_eq_zero.mp (by omega)
    subst this
    simp [cleanRun_nil]
  | succ n ih =>
    intro a rest out dotdot h
    cases a with
    | nil => simp [cleanRun_nil]
    | cons c t =>
      simp only [List.length_cons, Nat.add_le_add_iff_right] at h
      have htl : t.tail.length ≤ n := le_trans (by simp) h
      have htail : t.head? = some '.' → (t ++ '/' :: rest).tail = t.tail ++ '/' :: rest := by
        intro ht
        cases t with
        | nil => simp at ht
        | cons x t => rfl
      rw [List.cons_append, cleanRun_cons rooted c (t ++ '/' :: rest), cleanRun_cons rooted c t]
      simp only [elemEnd_append_sep, head_append_sep_dot]
      by_cases hs : isPathSeparator c = true
      · rw [if_pos hs, if_pos hs]
        exact ih _ _ _ _ h
      · rw [if_neg hs, if_neg hs]
        by_cases h2 : c = '.' ∧ (t = [] ∨ t.head? = some '/')
        · rw [if_pos h2, if_pos h2]
          exact ih _ _ _ _ h
        · rw [if_neg h2, if_neg h2]
          have hcond : (c = '.' ∧ t.head? = some '.' ∧
                ((t ++ '/' :: rest).tail = [] ∨ (t ++ '/' :: rest).tail.head? = some '/')) ↔
              (c = '.' ∧ t.head? = some '.' ∧ (t.tail = [] ∨ t.tail.head? = some '/')) := by
            cases t with
            | nil => simp
            | cons x t => simp only [List.cons_append, List.tail_cons, elemEnd_append_sep]
          simp only [hcond]
          by_cases h3 : c = '.' ∧ t.head? = some '.' ∧ (t.tail = [] ∨ t.tail.head? = some '/')
          · rw [if_pos h3, if_pos h3, htail h3.2.1]
            split_ifs <;> exact ih _ _ _ _ htl
          · rw [if_neg h3, if_neg h3, ← List.cons_append, takeWhile_append_sep,
              dropWhile_append_sep]
            refine ih _ _ _ _ ?_
            rw [List.dropWhile_cons_of_pos (by simpa using hs)]
            exact le_trans (length_dropWhile_le _ _) h

/-- In a rooted path the output keeps its leading separator. -/
theorem cleanLoop_rooted_head (fuel : Nat) :
    ∀ (rest out : List Char) (dotdot : Nat), out.head? = some '/' → 1 ≤ dotdot →
      (cleanLoop true fuel rest out dotdot).1.head? = some '/' := by
  induction fuel with
  | zero => intro rest out dotdot h _; simpa [cleanLoop] using h
  | succ fuel ih =>
    intro rest out dotdot h hd
    cases rest with
    | nil => simpa [cleanLoop] using h
    | cons c t =>
      obtain ⟨o, rfl⟩ : ∃ o, out = '/' :: o := by
        cases out with
        | nil => simp at h
        | cons x o => simp at h; exact ⟨o, by rw [h]⟩
      simp only [cleanLoop]
      split_ifs with h1 h2 h3 h4
      all_goals
        first
        | exact ih _ _ _ h hd
        | (exfalso; simp at *; done)
        | (refine ih _ _ _ ?_ hd; simp; done)
        | (refine ih _ _ _ ?_ hd
           have hb := backtrack_ge ('/' :: o) dotdot (('/' :: o).length - 1)
             (by simp only [List.length_cons] at h4 ⊢; omega)
           obtain ⟨k, hk⟩ : ∃ k, backtrack ('/' :: o) dotdot (('/' :: o).length - 1) = k + 1 :=
             ⟨backtrack ('/' :: o) dotdot (('/' :: o).length - 1) - 1, by omega⟩
           rw [hk]; rfl)

theorem cleanChars_rooted (t : List Char) :
    cleanChars ('/' :: t) = (cleanRun true t ['/'] 1).1 ∧
      (cleanChars ('/' :: t)).head? = some '/' := by
  have hh := cleanLoop_rooted_head t.length t ['/'] 1 rfl (le_refl _)
  have hne : (cleanLoop true t.length t ['/'] 1).1.length ≠ 0 := by
    intro h0
    rw [List.length_eq_zero.mp h0] at hh
    simp at hh
  have he : cleanChars ('/' :: t) = (cleanLoop true t.length t ['/'] 1).1 := by
    simp only [cleanChars, isPathSeparator, beq_self_eq_true, if_true, if_neg hne]
  exact ⟨he, by rw [he]; exact hh⟩

theorem Join_pair (h p : String) (hne : h ≠ "") : Join [h, p] = Clean (h ++ "/" ++ p) := by
  simp [Join, stringsJoin, hne]

theorem data_of_IsAbs (h : String) (habs : IsAbs h = true) : ∃ t, h.data = '/' :: t := by
  unfold IsAbs at habs
  cases hd : h.data with
  | nil => rw [hd] at habs; simp at habs
  | cons c t =>
    rw [hd] at habs
    simp at habs
    exact ⟨t, by rw [habs]⟩

/-- Appending the default relative path to an output that is not just the root. -/
theorem cleanRun_default_suffix (out : List Char) (dotdot : Nat) (hlen : out.length ≠ 1) :
    (cleanRun true ('/' :: ".sia/apipassword".data) out dotdot).1 =
      out ++ "/.sia/apipassword".data := by
  have e1 : ".sia/apipassword".data =
      ['.', 's', 'i', 'a', '/', 'a', 'p', 'i', 'p', 'a', 's', 's', 'w', 'o', 'r', 'd'] := rfl
  have e2 : "/.sia/apipassword".data =
      ['/', '.', 's', 'i', 'a', '/', 'a', 'p', 'i', 'p', 'a', 's', 's', 'w', 'o', 'r', 'd'] := rfl
  rw [e1, e2]
  simp [cleanRun_cons, cleanRun_nil, isPathSeparator, hlen]

end filepath

/-! ## Signal handling: theorems -/

theorem shutdownCalls_append (xs ys : List HandlerEvent) :
    shutdownCalls (xs ++ ys) = shutdownCalls xs ++ shutdownCalls ys := by
  induction xs with
  | nil => rfl
  | cons x xs ih => cases x <;> simp [shutdownCalls, ih]

/-- The iteration for a fast-shutdown signal. -/
theorem handleSignal_fast {σ : Type} (b : Backend σ) (st : σ) (sig : Signal)
    (h : sig = SIGINT ∨ sig = SIGTERM) :
    handleSignal b st sig =
      match (b.Shutdown st false).2 with
      | some err =>
        ([.logPrintf "Performing fast shutdown\n", .Shutdown false, .logFatal err], none)
      | none =>
        ([.logPrintf "Performing fast shutdown\n", .Shutdown false],
          some (b.Shutdown st false).1) := by
  unfold handleSignal
  rw [if_pos h]
  rcases hs : b.Shutdown st false with ⟨st1, _ | err⟩ <;> rfl

/-- The iteration for the thorough-shutdown signal. -/
theorem handleSignal_thorough {σ : Type} (b : Backend σ) (st : σ) :
    handleSignal b st SIGUSR1 =
      match (b.Shutdown st true).2 with
      | some err =>
        ([.logPrintf "Performing thorough shutdown\n", .Shutdown true, .logFatal err], none)
      | none =>
        ([.logPrintf "Performing thorough shutdown\n", .Shutdown true],
          some (b.Shutdown st true).1) := by
  unfold handleSignal
  rw [if_neg (by decide), if_pos rfl]
  rcases hs : b.Shutdown st true with ⟨st1, _ | err⟩ <;> rfl

/-- The iteration for any other signal. -/
theorem handleSignal_other {σ : Type} (b : Backend σ) (st : σ) (sig : Signal)
    (h1 : sig ≠ SIGINT) (h2 : sig ≠ SIGTERM) (h3 : sig ≠ SIGUSR1) :
    handleSignal b st sig = ([.goPanic "unexpected signal"], none) := by
  unfold handleSignal
  rw [if_neg (by rintro (h | h) <;> contradiction), if_neg h3]

/-- The `Shutdown` calls of one iteration. -/
theorem shutdownCalls_handleSignal {σ : Type} (b : Backend σ) (st : σ) (sig : Signal) :
    shutdownCalls (handleSignal b st sig).1 =
      if sig = SIGINT ∨ sig = SIGTERM then [false]
      else if sig = SIGUSR1 then [true] else [] := by
  by_cases h : sig = SIGINT ∨ sig = SIGTERM
  · rw [if_pos h, handleSignal_fast b st sig h]
    cases (b.Shutdown st false).2 <;> rfl
  · rw [if_neg h]
    by_cases h3 : sig = SIGUSR1
    · subst h3
      rw [if_pos rfl, handleSignal_thorough]
      cases (b.Shutdown st true).2 <;> rfl
    · rw [if_neg h3, handleSignal_other b st sig (fun e => h (Or.inl e)) (fun e => h (Or.inr e)) h3]
      rfl

/-- The loop starts with the events of the iteration for the first signal. -/
theorem installSignalHandlers_cons {σ : Type} (b : Backend σ) (st : σ) (sig : Signal)
    (rest : List Signal) :
    installSignalHandlers b st (sig :: rest) =
      (handleSignal b st sig).1 ++
        match (handleSignal b st sig).2 with
        | none => []
        | some st1 => installSignalHandlers b st1 rest := by
  rw [installSignalHandlers]
  rcases handleSignal b st sig with ⟨evs, _ | st1⟩ <;> simp

/-- C1: whenever the loop of `installSignalHandlers` receives a signal `sig` (in any
backend state `st`, with any signals `rest` still to come), the iteration calls
`Shutdown(false)` and nothing else when `sig` is SIGINT or SIGTERM, and
`Shutdown(true)` and nothing else when `sig` is SIGUSR1; that call is the first
`Shutdown` call of the remaining run; no signal triggers both modes, and
SIGINT/SIGTERM never trigger the thorough mode. -/
theorem installSignalHandlers_signal_to_mode {σ : Type} (b : Backend σ) (st : σ)
    (sig : Signal) (rest : List Signal) :
    ((sig = SIGINT ∨ sig = SIGTERM) →
      shutdownCalls (handleSignal b st sig).1 = [false] ∧
      (shutdownCalls (installSignalHandlers b st (sig :: rest))).head? = some false) ∧
    (sig = SIGUSR1 →
      shutdownCalls (handleSignal b st sig).1 = [true] ∧
      (shutdownCalls (installSignalHandlers b st (sig :: rest))).head? = some true) ∧
    ¬ (false ∈ shutdownCalls (handleSignal b st sig).1 ∧
        true ∈ shutdownCalls (handleSignal b st sig).1) ∧
    ((sig = SIGINT ∨ sig = SIGTERM) → true ∉ shutdownCalls (handleSignal b st sig).1) := by
  have hc := shutdownCalls_handleSignal b st sig
  have hl := installSignalHandlers_cons b st sig rest
  refine ⟨fun h => ?_, fun h => ?_, ?_, fun h => ?_⟩
  · rw [if_pos h] at hc
    refine ⟨hc, ?_⟩
    rw [hl, shutdownCalls_append, hc]; rfl
  · have hn : ¬ (sig = SIGINT ∨ sig = SIGTERM) := by subst h; decide
    rw [if_neg hn, if_pos h] at hc
    refine ⟨hc, ?_⟩
    rw [hl, shutdownCalls_append, hc]; rfl
  · rw [hc]; split_ifs <;> simp
  · rw [hc, if_pos h]; simp

/-- C2 (as stated, refuted): with a backend whose `Shutdown` returns no error, the two
signals SIGINT, SIGTERM received one after the other cause two `Shutdown` calls. -/
theorem installSignalHandlers_second_signal_calls_again :
    installSignalHandlers countingBackend 0 [SIGINT, SIGTERM] =
      [.logPrintf "Performing fast shutdown\n", .Shutdown false,
       .logPrintf "Performing fast shutdown\n", .Shutdown false] ∧
    (shutdownCalls (installSignalHandlers countingBackend 0 [SIGINT, SIGTERM])).length = 2 := by
  decide

/-- C2 (amended): when every received signal is SIGINT, SIGTERM or SIGUSR1 and
`Shutdown` returns no error, the loop calls `Shutdown` once for every received
signal, in the order received and in the mode of that signal; so the number of
calls is the number of signals received, and a later signal is not ignored. -/
theorem installSignalHandlers_one_call_per_signal {σ : Type} (b : Backend σ) (st : σ)
    (sigs : List Signal)
    (hsig : ∀ s ∈ sigs, s = SIGINT ∨ s = SIGTERM ∨ s = SIGUSR1)
    (hok : ∀ st m, (b.Shutdown st m).2 = none) :
    shutdownCalls (installSignalHandlers b st sigs) = sigs.map (fun s => decide (s = SIGUSR1)) ∧
    (shutdownCalls (installSignalHandlers b st sigs)).length = sigs.length := by
  have key : ∀ (sigs : List Signal) (st : σ),
      (∀ s ∈ sigs, s = SIGINT ∨ s = SIGTERM ∨ s = SIGUSR1) →
      shutdownCalls (installSignalHandlers b st sigs) =
        sigs.map (fun s => decide (s = SIGUSR1)) := by
    intro sigs
    induction sigs with
    | nil => intro st _; rfl
    | cons sig rest ih =>
      intro st hs
      have hrest : ∀ s ∈ rest, s = SIGINT ∨ s = SIGTERM ∨ s = SIGUSR1 :=
        fun s hm => hs s (List.mem_cons_of_mem _ hm)
      rw [installSignalHandlers_cons, shutdownCalls_append, shutdownCalls_handleSignal]
      have hfast : ∀ s : Signal, (s = SIGINT ∨ s = SIGTERM) → decide (s = SIGUSR1) = false := by
        rintro s (h | h) <;> subst h <;> decide
      rcases hs sig (List.mem_cons_self _ _) with h | h | h
      · have hf := handleSignal_fast b st sig (Or.inl h)
        rw [hok st false] at hf
        rw [hf, if_pos (Or.inl h), List.map_cons, hfast sig (Or.inl h)]
        simp [ih _ hrest]
      · have hf := handleSignal_fast b st sig (Or.inr h)
        rw [hok st false] at hf
        rw [hf, if_pos (Or.inr h), List.map_cons, hfast sig (Or.inr h)]
        simp [ih _ hrest]
      · subst h
        have hf := handleSignal_thorough b st
        rw [hok st true] at hf
        rw [hf, if_neg (by decide), if_pos rfl, List.map_cons]
        simp [ih _ hrest]
  refine ⟨key sigs st hsig, ?_⟩
  rw [key sigs st hsig, List.length_map]

/-- C2 (amended), at the signals SIGINT, SIGUSR1, SIGTERM and a backend that counts its calls. -/
theorem installSignalHandlers_one_call_per_signal_witness :
    shutdownCalls (installSignalHandlers countingBackend 0 [SIGINT, SIGUSR1, SIGTERM]) =
        [SIGINT, SIGUSR1, SIGTERM].map (fun s => decide (s = SIGUSR1)) ∧
    (shutdownCalls (installSignalHandlers countingBackend 0 [SIGINT, SIGUSR1, SIGTERM])).length =
        [SIGINT, SIGUSR1, SIGTERM].length :=
  installSignalHandlers_one_call_per_signal countingBackend 0 [SIGINT, SIGUSR1, SIGTERM]
    (by decide) (fun _ _ => rfl)

/-- C3: for a signal other than SIGINT, SIGTERM and SIGUSR1 the loop panics with
"unexpected signal" and calls `Shutdown` in neither mode; for each of the three
valid signals the iteration ends the process exactly when `Shutdown` (called in
the mode of the signal) returns an error, and it then ends with `log.Fatal` of
that error. -/
theorem installSignalHandlers_abort {σ : Type} (b : Backend σ) (st : σ)
    (sig : Signal) (rest : List Signal) :
    ((sig ≠ SIGINT ∧ sig ≠ SIGTERM ∧ sig ≠ SIGUSR1) →
      installSignalHandlers b st (sig :: rest) = [.goPanic "unexpected signal"] ∧
      shutdownCalls (installSignalHandlers b st (sig :: rest)) = []) ∧
    ((sig = SIGINT ∨ sig = SIGTERM ∨ sig = SIGUSR1) →
      ((handleSignal b st sig).2 = none ↔
        ∃ err, (b.Shutdown st (decide (sig = SIGUSR1))).2 = some err) ∧
      (∀ err, (b.Shutdown st (decide (sig = SIGUSR1))).2 = some err →
        (handleSignal b st sig).1.getLast? = some (.logFatal err) ∧
        ∀ msg, HandlerEvent.goPanic msg ∉ (handleSignal b st sig).1) ∧
      ((b.Shutdown st (decide (sig = SIGUSR1))).2 = none →
        ∀ ev ∈ (handleSignal b st sig).1,
          (∀ err, ev ≠ .logFatal err) ∧ ∀ msg, ev ≠ .goPanic msg)) := by
  refine ⟨fun ⟨h1, h2, h3⟩ => ?_, fun h => ?_⟩
  · rw [installSignalHandlers_cons, handleSignal_other b st sig h1 h2 h3]
    exact ⟨rfl, rfl⟩
  · have hfast : ∀ s : Signal, (s = SIGINT ∨ s = SIGTERM) → decide (s = SIGUSR1) = false := by
      rintro s (h | h) <;> subst h <;> decide
    rcases h with h | h | h
    · rw [hfast sig (Or.inl h), handleSignal_fast b st sig (Or.inl h)]
      cases (b.Shutdown st false).2 <;> simp
    · rw [hfast sig (Or.inr h), handleSignal_fast b st sig (Or.inr h)]
      cases (b.Shutdown st false).2 <;> simp
    · subst h
      rw [show decide (SIGUSR1 = SIGUSR1) = true from by decide, handleSignal_thorough]
      cases (b.Shutdown st true).2 <;> simp

/-! ## Start-up: theorems -/

theorem mem_serve_NewBackend (w : World) (p : String) (sz : Nat) (bs s : BackendSettings) :
    Event.NewBackend s ∈ serve w p sz bs ↔ s = bs := by
  unfold serve
  cases w.newBackendErr bs <;> cases w.serveErr p sz <;> simp

theorem mem_serve_nbdServe (w : World) (p : String) (sz : Nat) (bs : BackendSettings)
    (p1 : String) (sz1 : Nat) :
    Event.nbdServe p1 sz1 ∈ serve w p sz bs ↔
      w.newBackendErr bs = none ∧ p1 = p ∧ sz1 = sz := by
  unfold serve
  cases w.newBackendErr bs <;> cases w.serveErr p sz <;> simp

/-- When both defaults can be computed and a socket path is known, `main` is `serve`
on the flag values. -/
theorem main_run (env : Env) (w : World) (flags : Flags) (sp pw : String)
    (h1 : config.GetSocketPath env "" = .ok sp)
    (h2 : config.GetAPIPasswordPath env ".sia/apipassword" = .ok pw)
    (h3 : flags.unix.getD sp ≠ "") :
    main env w (.run flags) =
      serve w (flags.unix.getD sp) (flags.size.getD defaultSize) (settingsOf flags pw) := by
  unfold main
  rw [h1, h2]
  simp only [rootRun, if_neg h3, settingsOf, defaultSize]

/-- Whenever `main` reaches `sia.NewBackend` or `nbd.Serve`, the command line was parsed
into flags, both defaults were computed, and the trace is that of `serve`. -/
theorem main_serves (env : Env) (w : World) (cli : CommandLine)
    (h : (∃ s, Event.NewBackend s ∈ main env w cli) ∨
      (∃ p sz, Event.nbdServe p sz ∈ main env w cli)) :
    ∃ flags sp pw, cli = .run flags ∧ config.GetSocketPath env "" = .ok sp ∧
      config.GetAPIPasswordPath env ".sia/apipassword" = .ok pw ∧ flags.unix.getD sp ≠ "" ∧
      main env w cli =
        serve w (flags.unix.getD sp) (flags.size.getD defaultSize) (settingsOf flags pw) := by
  rcases h1 : config.GetSocketPath env "" with e | sp
  · exfalso; unfold main at h; rw [h1] at h; simp at h
  rcases h2 : config.GetAPIPasswordPath env ".sia/apipassword" with e | pw
  · exfalso; unfold main at h; rw [h1, h2] at h; simp at h
  cases cli with
  | invalid err => exfalso; unfold main at h; rw [h1, h2] at h; simp at h
  | help => exfalso; unfold main at h; rw [h1, h2] at h; simp at h
  | run flags =>
    by_cases h3 : flags.unix.getD sp = ""
    · exfalso; unfold main at h; rw [h1, h2] at h; simp [rootRun, h3] at h
    · exact ⟨flags, sp, pw, rfl, rfl, rfl, h3, main_run env w flags sp pw h1 h2 h3⟩

/-- The settings passed to `sia.NewBackend` by `main` are those built from the flags. -/
theorem main_settings (env : Env) (w : World) (flags : Flags) (s : BackendSettings)
    (h : Event.NewBackend s ∈ main env w (.run flags)) :
    ∃ pw, config.GetAPIPasswordPath env ".sia/apipassword" = .ok pw ∧ s = settingsOf flags pw := by
  obtain ⟨flags1, sp, pw, hc, _, h2, _, hm⟩ := main_serves env w (.run flags) (Or.inl ⟨s, h⟩)
  cases hc
  rw [hm, mem_serve_NewBackend] at h
  exact ⟨pw, h2, h⟩

/-- C4 (as stated, refuted): with `--hard 1 --soft 2` (values that fit an `int`) the settings `main` passes on have
`HardMaxCached = 1 < 2 = SoftMaxCached`. -/
theorem main_hard_below_soft :
    flagsHard1Soft2.InRange ∧
    main sampleEnv okWorld (.run flagsHard1Soft2) =
      serve okWorld "/run/user/1000" defaultSize (settingsOf flagsHard1Soft2 "/home/u/.sia/apipassword") ∧
    Event.NewBackend (settingsOf flagsHard1Soft2 "/home/u/.sia/apipassword") ∈
      main sampleEnv okWorld (.run flagsHard1Soft2) ∧
    (settingsOf flagsHard1Soft2 "/home/u/.sia/apipassword").HardMaxCached = 1 ∧
    (settingsOf flagsHard1Soft2 "/home/u/.sia/apipassword").SoftMaxCached = 2 ∧
    ¬ ((settingsOf flagsHard1Soft2 "/home/u/.sia/apipassword").HardMaxCached ≥
        (settingsOf flagsHard1Soft2 "/home/u/.sia/apipassword").SoftMaxCached) := by
  have hm := main_run sampleEnv okWorld flagsHard1Soft2 "/run/user/1000"
    "/home/u/.sia/apipassword" rfl rfl (by decide)
  refine ⟨?_, hm, ?_, rfl, rfl, by decide⟩
  · simp [Flags.InRange, flagsHard1Soft2, noFlags]
  · rw [hm, mem_serve_NewBackend]

/-- C4 (amended): the settings `main` passes on carry the values of `--hard` and `--soft`
unchanged (defaults 128 and 96), so `HardMaxCached >= SoftMaxCached` holds exactly
when the value of `--hard` is at least the value of `--soft`; it holds in
particular when neither flag is given. -/
theorem main_cache_limits (env : Env) (w : World) (flags : Flags) (s : BackendSettings)
    (h : Event.NewBackend s ∈ main env w (.run flags)) :
    s.HardMaxCached = flags.hard.getD 128 ∧ s.SoftMaxCached = flags.soft.getD 96 ∧
    (s.HardMaxCached ≥ s.SoftMaxCached ↔ flags.hard.getD 128 ≥ flags.soft.getD 96) ∧
    (flags.hard = none → flags.soft = none → s.HardMaxCached ≥ s.SoftMaxCached) := by
  obtain ⟨pw, _, hs⟩ := main_settings env w flags s h
  subst hs
  refine ⟨rfl, rfl, Iff.rfl, fun h1 h2 => ?_⟩
  simp [settingsOf, mkBackendSettings, h1, h2]

/-- C4 (amended), at the run without flags in the sample environment. -/
theorem main_cache_limits_witness :
    (settingsOf noFlags "/home/u/.sia/apipassword").HardMaxCached = noFlags.hard.getD 128 ∧
    (settingsOf noFlags "/home/u/.sia/apipassword").SoftMaxCached = noFlags.soft.getD 96 ∧
    ((settingsOf noFlags "/home/u/.sia/apipassword").HardMaxCached ≥
        (settingsOf noFlags "/home/u/.sia/apipassword").SoftMaxCached ↔
      noFlags.hard.getD 128 ≥ noFlags.soft.getD 96) ∧
    (noFlags.hard = none → noFlags.soft = none →
      (settingsOf noFlags "/home/u/.sia/apipassword").HardMaxCached ≥
        (settingsOf noFlags "/home/u/.sia/apipassword").SoftMaxCached) :=
  main_cache_limits sampleEnv okWorld noFlags (settingsOf noFlags "/home/u/.sia/apipassword")
    (by decide)

/-- C5: whatever the command line, the export size `serve` passes to `nbd.Serve` equals
the `Size` field of the settings passed to `sia.NewBackend`, and both are the value
of `--size` (default 1 TiB); `nbd.Serve` is reached with that size whenever
`sia.NewBackend` succeeds; with no flag both are 2^40 = 16384 * 67108864 bytes,
and 67108864 = 2^26. -/
theorem main_export_size (env : Env) (w : World) (flags : Flags) :
    (∀ s p sz, Event.NewBackend s ∈ main env w (.run flags) →
      Event.nbdServe p sz ∈ main env w (.run flags) → sz = s.Size) ∧
    (∀ s, Event.NewBackend s ∈ main env w (.run flags) →
      s.Size = flags.size.getD defaultSize ∧
      (w.newBackendErr s = none →
        ∃ p, Event.nbdServe p s.Size ∈ main env w (.run flags))) ∧
    (∀ p sz, Event.nbdServe p sz ∈ main env w (.run flags) →
      sz = flags.size.getD defaultSize) ∧
    (flags.size = none → flags.size.getD defaultSize = 2 ^ 40) ∧
    (2 : Nat) ^ 40 = 16384 * 67108864 ∧ (67108864 : Nat) = 2 ^ 26 := by
  refine ⟨fun s p sz h1 h2 => ?_, fun s h1 => ?_, fun p sz h2 => ?_, fun h => ?_,
    by norm_num, by norm_num⟩
  · obtain ⟨flags1, sp, pw, hc, _, _, _, hm⟩ := main_serves env w (.run flags) (Or.inl ⟨s, h1⟩)
    cases hc
    rw [hm, mem_serve_NewBackend] at h1
    rw [hm, mem_serve_nbdServe] at h2
    rw [h1, h2.2.2]; rfl
  · obtain ⟨flags1, sp, pw, hc, _, _, _, hm⟩ := main_serves env w (.run flags) (Or.inl ⟨s, h1⟩)
    cases hc
    rw [hm, mem_serve_NewBackend] at h1
    subst h1
    refine ⟨rfl, fun hok => ⟨flags.unix.getD sp, ?_⟩⟩
    rw [hm, mem_serve_nbdServe]
    exact ⟨hok, rfl, rfl⟩
  · obtain ⟨flags1, sp, pw, hc, _, _, _, hm⟩ :=
      main_serves env w (.run flags) (Or.inr ⟨p, sz, h2⟩)
    cases hc
    rw [hm, mem_serve_nbdServe] at h2
    exact h2.2.2
  · rw [h]; norm_num [defaultSize]

/-- The run without flags in the sample environment: both sizes are 2^40. -/
theorem main_export_size_default :
    main sampleEnv okWorld (.run noFlags) =
      [.NewBackend (settingsOf noFlags "/home/u/.sia/apipassword"),
       .goInstallSignalHandlers, .nbdServe "/run/user/1000" (2 ^ 40), .backendWait] ∧
    (settingsOf noFlags "/home/u/.sia/apipassword").Size = 2 ^ 40 := by
  decide

/-- The idle interval passed on by `main` is the wrapped product. -/
theorem settingsOf_IdleInterval (flags : Flags) (pw : String) :
    (settingsOf flags pw).IdleInterval = wrapInt64 (flags.idle.getD 120 * 1000000000) := rfl

/-- C8 (as stated, refuted): with `--idle 9223372037` (a value that fits an `int`) the product overflows the 64-bit
`int`; the `IdleInterval` passed on is negative and is not 9223372037 seconds. -/
theorem main_idle_overflow :
    flagsIdleLarge.InRange ∧
    Event.NewBackend (settingsOf flagsIdleLarge "/home/u/.sia/apipassword") ∈
      main sampleEnv okWorld (.run flagsIdleLarge) ∧
    (settingsOf flagsIdleLarge "/home/u/.sia/apipassword").IdleInterval = -9223372036709551616 ∧
    (settingsOf flagsIdleLarge "/home/u/.sia/apipassword").IdleInterval ≠
      9223372037 * 1000000000 := by
  refine ⟨?_, by decide, by decide, by decide⟩
  simp [Flags.InRange, flagsIdleLarge, noFlags]

/-- C8 (amended): the `IdleInterval` in the settings is the product of the value `n` of
`--idle` (default 120) and 1,000,000,000, computed in the 64-bit `int`: it is
the product wrapped into the range of `int64`, and it is exactly `n` seconds
(`n * 1,000,000,000` ns) if and only if -9223372036 ≤ n ≤ 9223372036; with no
flag it is 120,000,000,000 ns. -/
theorem main_idle_interval (env : Env) (w : World) (flags : Flags) (s : BackendSettings)
    (h : Event.NewBackend s ∈ main env w (.run flags)) :
    s.IdleInterval = wrapInt64 (flags.idle.getD 120 * 1000000000) ∧
    (-2 ^ 63 ≤ s.IdleInterval ∧ s.IdleInterval < 2 ^ 63) ∧
    (s.IdleInterval = flags.idle.getD 120 * 1000000000 ↔
      (-9223372036 ≤ flags.idle.getD 120 ∧ flags.idle.getD 120 ≤ 9223372036)) ∧
    (flags.idle = none → s.IdleInterval = 120000000000) := by
  obtain ⟨pw, _, hs⟩ := main_settings env w flags s h
  subst hs
  rw [settingsOf_IdleInterval]
  refine ⟨rfl, ?_, ?_, fun hn => ?_⟩
  · unfold wrapInt64
    norm_num
    omega
  · unfold wrapInt64
    norm_num
    omega
  · rw [hn]; decide

/-- C8 (amended), at the run without flags in the sample environment. -/
theorem main_idle_interval_witness :
    (settingsOf noFlags "/home/u/.sia/apipassword").IdleInterval =
      wrapInt64 (noFlags.idle.getD 120 * 1000000000) ∧
    (-2 ^ 63 ≤ (settingsOf noFlags "/home/u/.sia/apipassword").IdleInterval ∧
      (settingsOf noFlags "/home/u/.sia/apipassword").IdleInterval < 2 ^ 63) ∧
    ((settingsOf noFlags "/home/u/.sia/apipassword").IdleInterval =
        noFlags.idle.getD 120 * 1000000000 ↔
      (-9223372036 ≤ noFlags.idle.getD 120 ∧ noFlags.idle.getD 120 ≤ 9223372036)) ∧
    (noFlags.idle = none →
      (settingsOf noFlags "/home/u/.sia/apipassword").IdleInterval = 120000000000) :=
  main_idle_interval sampleEnv okWorld noFlags (settingsOf noFlags "/home/u/.sia/apipassword")
    (by decide)

/-! ## Configuration paths: theorems -/

/-- C6 (the code at the failing input): with `XDG_RUNTIME_DIR=/run/user/1000` and no `-u`
flag, the default socket path computed by `main` is the runtime directory itself,
not `/run/user/1000/sia-nbdserver`, and `nbd.Serve` is called on it. -/
theorem GetSocketPath_default_is_runtime_dir :
    config.GetSocketPath sampleEnv "" = .ok "/run/user/1000" ∧
    filepath.Join ["/run/user/1000", "sia-nbdserver"] = "/run/user/1000/sia-nbdserver" ∧
    "/run/user/1000" ≠ filepath.Join ["/run/user/1000", "sia-nbdserver"] ∧
    main sampleEnv okWorld (.run noFlags) =
      [.NewBackend (settingsOf noFlags "/home/u/.sia/apipassword"),
       .goInstallSignalHandlers, .nbdServe "/run/user/1000" (2 ^ 40), .backendWait] :=
  ⟨rfl, by decide, by decide, by decide⟩

/-- C7 (the code at the failing input): when `XDG_RUNTIME_DIR` is unset, `main` ends in the
`log.Fatal` of `config.GetSocketPath` whatever the command line is; `Run` is not
reached, also when a socket path is given with `-u`. -/
theorem main_without_runtime_dir (home : Except String String) (w : World)
    (cli : CommandLine) :
    main { XDG_RUNTIME_DIR := "", currentUser := home } w cli =
      [.logFatal "$XDG_RUNTIME_DIR not set"] ∧
    main { XDG_RUNTIME_DIR := "", currentUser := home } w (.run flagsUnix) =
      [.logFatal "$XDG_RUNTIME_DIR not set"] ∧
    (∀ p sz, Event.nbdServe p sz ∉ main { XDG_RUNTIME_DIR := "", currentUser := home } w cli) ∧
    (∀ msg, Event.println msg ∉ main { XDG_RUNTIME_DIR := "", currentUser := home } w cli) := by
  have hm : ∀ cli, main { XDG_RUNTIME_DIR := "", currentUser := home } w cli =
      [.logFatal "$XDG_RUNTIME_DIR not set"] := by
    intro cli
    simp [main, config.GetSocketPath]
  refine ⟨hm cli, hm _, fun p sz => ?_, fun msg => ?_⟩ <;> rw [hm] <;> simp

/-- C9 (as stated, refuted): the home directory `/` is absolute and clean, and the password
path computed for it is `/.sia/apipassword`, not `/` followed by `/.sia/apipassword`. -/
theorem GetAPIPasswordPath_root_home :
    filepath.IsAbs "/" = true ∧ filepath.Clean "/" = "/" ∧
    config.GetAPIPasswordPath rootHomeEnv ".sia/apipassword" = .ok "/.sia/apipassword" ∧
    "/.sia/apipassword" ≠ "/" ++ "/.sia/apipassword" :=
  ⟨by decide, by decide, rfl, by decide⟩

/-- C9 (amended): when the home directory `h` of the current user is an absolute path,
`config.GetAPIPasswordPath(p)` returns `filepath.Join(h, p)` for every `p`, and this
is an absolute path; for the default `p = ".sia/apipassword"` and a clean `h` other
than the root directory the result is `h` followed by `/.sia/apipassword`, and for
`h = "/"` it is `/.sia/apipassword`. -/
theorem GetAPIPasswordPath_absolute (env : Env) (h p : String)
    (hu : env.currentUser = .ok h) (habs : filepath.IsAbs h = true) :
    config.GetAPIPasswordPath env p = .ok (filepath.Join [h, p]) ∧
    filepath.IsAbs (filepath.Join [h, p]) = true ∧
    (filepath.Clean h = h → h ≠ "/" →
      config.GetAPIPasswordPath env ".sia/apipassword" = .ok (h ++ "/.sia/apipassword")) ∧
    (h = "/" →
      config.GetAPIPasswordPath env ".sia/apipassword" = .ok "/.sia/apipassword") := by
  obtain ⟨t, ht⟩ := filepath.data_of_IsAbs h habs
  have hne : h ≠ "" := by
    intro he
    rw [he] at ht
    simp at ht
  have hget : ∀ q, config.GetAPIPasswordPath env q = .ok (filepath.Join [h, q]) := by
    intro q
    simp only [config.GetAPIPasswordPath, hu]
  have hdata : ∀ q : String, (h ++ "/" ++ q).data = '/' :: (t ++ '/' :: q.data) := by
    intro q
    simp [String.data_append, ht]
  refine ⟨hget p, ?_, fun hclean hroot => ?_, fun hroot => ?_⟩
  · rw [filepath.Join_pair h p hne]
    unfold filepath.IsAbs filepath.Clean
    rw [hdata, (filepath.cleanChars_rooted _).2]
    rfl
  · rw [hget, filepath.Join_pair h _ hne]
    have htne : t ≠ [] := by
      intro h0
      apply hroot
      rw [h0] at ht
      exact String.ext ht
    have hrun : (filepath.cleanRun true t ['/'] 1).1 = '/' :: t := by
      have hc : (filepath.Clean h).data = h.data := by rw [hclean]
      rw [filepath.Clean, ht, (filepath.cleanChars_rooted t).1] at hc
      exact hc
    have hlen : ((filepath.cleanRun true t ['/'] 1).1).length ≠ 1 := by
      rw [hrun]
      cases t with
      | nil => exact absurd rfl htne
      | cons x t => simp
    congr 1
    apply String.ext
    rw [filepath.Clean, hdata, (filepath.cleanChars_rooted _).1,
      filepath.cleanRun_append_sep true t.length t _ _ _ (le_refl _),
      filepath.cleanRun_default_suffix _ _ hlen, hrun, String.data_append, ht]
  · subst hroot
    rw [hget]
    rfl

/-- C9 (amended), at the home directory `/home/u`. -/
theorem GetAPIPasswordPath_absolute_witness :
    config.GetAPIPasswordPath sampleEnv ".sia/apipassword" =
      .ok (filepath.Join ["/home/u", ".sia/apipassword"]) ∧
    filepath.IsAbs (filepath.Join ["/home/u", ".sia/apipassword"]) = true ∧
    (filepath.Clean "/home/u" = "/home/u" → "/home/u" ≠ "/" →
      config.GetAPIPasswordPath sampleEnv ".sia/apipassword" =
        .ok ("/home/u" ++ "/.sia/apipassword")) ∧
    ("/home/u" = "/" →
      config.GetAPIPasswordPath sampleEnv ".sia/apipassword" = .ok "/.sia/apipassword") :=
  GetAPIPasswordPath_absolute sampleEnv "/home/u" ".sia/apipassword" rfl (by decide)

end SiaNbd
